import Mathlib

/-!
Verification of the input-sensitive throttle combinator
(src/src/inputSensitiveThrottle.ts).

The source is a single higher-order function `makeInputSensitiveThrottle`
which composes two externally supplied strategies:

  * a memoizer: caches the result of a factory per distinct argument list,
    keyed by the memoizer equality policy (modelled here as a key
    projection `keyFn : α → κ`, the common case named in the design notes:
    a projection of the arguments to a hashable key);
  * a throttler: wraps a zero-argument operation in a time gate; each
    throttler instance carries its own independent internal timing state.

The TypeScript closures mutate state in place; the embedding makes that
state explicit and threads it through every call:

  * a throttler instance produced by `throttler(() => func(args))` becomes
    a `ThrottledOp`: the argument list captured by the closure together
    with the current internal timing state of the instance;
  * the opaque throttler strategy becomes a `ThrottlePolicy`: the state a
    fresh instance starts in, and a `gate` step which, from the current
    timing state, decides whether the gated call is invoked now and what
    the next timing state is;
  * the memoizer cache becomes a `Registry`, a map from keys to the stored
    throttler instances; the suppressed-call sentinel of the throttler is
    `none`, a gated call that went through returns `some` of the value of
    the target.

Each call of the wrapped function is then a function from a registry and
an argument list to a result and an updated registry, translated line by
line from the source (lines 73-85).
-/

namespace InputSensitiveThrottle

/-- Model of the external throttler strategy: `init` is the internal
timing state of a freshly created throttler instance, and `gate` steps the
timing state at an invocation of the throttled operation, first component
`true` when the gate lets the underlying operation run now. -/
structure ThrottlePolicy (σ : Type) where
  init : σ
  gate : σ → Bool × σ

/-- A throttler instance `throttled = throttler(() => func(args))`
(source line 75): the closure has captured `args`, and the instance owns
internal timing state. -/
structure ThrottledOp (α σ : Type) where
  capturedArgs : α
  tstate : σ
deriving DecidableEq

/-- The key-to-instance cache owned by the memoizer. -/
def Registry (κ α σ : Type) : Type :=
  κ → Option (ThrottledOp α σ)

/-- The cache of a freshly built memoized function: nothing stored yet. -/
def emptyRegistry {κ α σ : Type} : Registry κ α σ :=
  fun _ => none

variable {α β κ σ ε : Type}

/-- Source lines 74-77: `makeThrottleFnForInput` builds the closure
`() => func(args)` (capturing `args`) and passes it through `throttler`,
yielding a fresh instance whose timing state is the initial state of the
policy. -/
def makeThrottleFnForInput (pol : ThrottlePolicy σ) (args : α) : ThrottledOp α σ :=
  ⟨args, pol.init⟩

/-- Source line 79: `throttleFnsCachedByInput = memoizer(makeThrottleFnForInput)`.
Calling the memoized function with `args` either returns the instance
already stored under the key of `args`, or runs `makeThrottleFnForInput`
and stores the fresh instance under that key. -/
def throttleFnsCachedByInput [DecidableEq κ] (keyFn : α → κ) (pol : ThrottlePolicy σ)
    (reg : Registry κ α σ) (args : α) : ThrottledOp α σ × Registry κ α σ :=
  match reg (keyFn args) with
  | some t => (t, reg)
  | none =>
    let t := makeThrottleFnForInput pol args
    (t, fun k => if k = keyFn args then some t else reg k)

/-- Invoking a throttler instance (`throttleFnForInput()` at source line
83): the gate steps the timing state of the instance (stored back under
its key), and the result is the value of the target at the captured
arguments when the gate allows the call, or the sentinel `none` when the
gate suppresses it. -/
def invokeThrottledOp [DecidableEq κ] (func : α → β) (pol : ThrottlePolicy σ) (k : κ)
    (t : ThrottledOp α σ) (reg : Registry κ α σ) : Option β × Registry κ α σ :=
  let g := pol.gate t.tstate
  let reg2 : Registry κ α σ := fun k2 => if k2 = k then some ⟨t.capturedArgs, g.2⟩ else reg k2
  (if g.1 then some (func t.capturedArgs) else none, reg2)

/-- Source lines 81-84: one call of the returned wrapped function.
Resolve the throttler instance for the input through the memoized cache,
then invoke it with no arguments. -/
def wrappedFunction [DecidableEq κ] (func : α → β) (keyFn : α → κ) (pol : ThrottlePolicy σ)
    (reg : Registry κ α σ) (args : α) : Option β × Registry κ α σ :=
  let r := throttleFnsCachedByInput keyFn pol reg args
  invokeThrottledOp func pol (keyFn args) r.1 r.2

/-- The throttler instance a call with `args` resolves (first component of
the memoized lookup). -/
def resolvedThrottleFn [DecidableEq κ] (keyFn : α → κ) (pol : ThrottlePolicy σ)
    (reg : Registry κ α σ) (args : α) : ThrottledOp α σ :=
  (throttleFnsCachedByInput keyFn pol reg args).1

/-- Variant for a target that can fail, `func : α → Except ε β`: nothing
in the source catches, so a failure of the target during a gated
invocation is the result of `throttleFnForInput()` and hence of the
wrapped call; a suppressed call never runs the target and returns the
sentinel. -/
def invokeThrottledOpE [DecidableEq κ] (func : α → Except ε β) (pol : ThrottlePolicy σ) (k : κ)
    (t : ThrottledOp α σ) (reg : Registry κ α σ) : Except ε (Option β) × Registry κ α σ :=
  let g := pol.gate t.tstate
  let reg2 : Registry κ α σ := fun k2 => if k2 = k then some ⟨t.capturedArgs, g.2⟩ else reg k2
  ((if g.1 then (func t.capturedArgs).map some else Except.ok none), reg2)

/-- Source lines 81-84 for a fallible target: resolve through the
memoized cache, then invoke. -/
def wrappedFunctionE [DecidableEq κ] (func : α → Except ε β) (keyFn : α → κ)
    (pol : ThrottlePolicy σ) (reg : Registry κ α σ) (args : α) :
    Except ε (Option β) × Registry κ α σ :=
  let r := throttleFnsCachedByInput keyFn pol reg args
  invokeThrottledOpE func pol (keyFn args) r.1 r.2

/-- A sequence of calls of the wrapped function, in caller order: the
results in order, and the final registry. -/
def runCalls [DecidableEq κ] (func : α → β) (keyFn : α → κ) (pol : ThrottlePolicy σ) :
    Registry κ α σ → List α → List (Option β) × Registry κ α σ
  | reg, [] => ([], reg)
  | reg, a :: rest =>
    let r := wrappedFunction func keyFn pol reg a
    let s := runCalls func keyFn pol r.2 rest
    (r.1 :: s.1, s.2)

/-- The first call in a list whose key equals `k`. -/
def firstWithKey [DecidableEq κ] (keyFn : α → κ) (cs : List α) (k : κ) : Option α :=
  cs.find? (fun c => decide (keyFn c = k))

/-- How many times, along a sequence of calls, the memoized factory runs
the throttler on a fresh closure for key `k`: exactly the calls whose
arguments map to `k` while no instance is stored under `k` yet (the miss
branch of `throttleFnsCachedByInput`). -/
def throttlerRunsForKey [DecidableEq κ] (func : α → β) (keyFn : α → κ) (pol : ThrottlePolicy σ) :
    Registry κ α σ → List α → κ → Nat
  | _, [], _ => 0
  | reg, a :: rest, k =>
    (if decide (keyFn a = k) && (reg (keyFn a)).isNone then 1 else 0)
      + throttlerRunsForKey func keyFn pol (wrappedFunction func keyFn pol reg a).2 rest k

/-- The value `makeInputSensitiveThrottle(func, {memoizer, throttler})`
returns: a closure over the one memoized cache built eagerly at
construction (line 79), whose behavior on a call is `wrappedFunction`. -/
structure Wrapper (κ α σ β : Type) where
  registry : Registry κ α σ
  call : Registry κ α σ → α → Option β × Registry κ α σ

/-- Source lines 53-85: construction of the combinator. The memoizer runs
once, here, producing the single cache every later call resolves through;
no call has happened yet, so the cache is empty. -/
def makeInputSensitiveThrottle [DecidableEq κ] (func : α → β) (keyFn : α → κ)
    (pol : ThrottlePolicy σ) : Wrapper κ α σ β :=
  { registry := emptyRegistry, call := wrappedFunction func keyFn pol }

/-- An interleaved run through two independently constructed wrappers,
each owning its registry: a call tagged `true` goes through the first
wrapper, a call tagged `false` through the second. -/
def runTwo [DecidableEq κ] (func : α → β) (keyFn : α → κ) (pol : ThrottlePolicy σ) :
    Registry κ α σ × Registry κ α σ → List (Bool × α) →
      List (Option β) × (Registry κ α σ × Registry κ α σ)
  | st, [] => ([], st)
  | st, (w, a) :: rest =>
    if w then
      let r := wrappedFunction func keyFn pol st.1 a
      let s := runTwo func keyFn pol (r.2, st.2) rest
      (r.1 :: s.1, s.2)
    else
      let r := wrappedFunction func keyFn pol st.2 a
      let s := runTwo func keyFn pol (st.1, r.2) rest
      (r.1 :: s.1, s.2)

/-- The calls an interleaved list sends through the wrapper tagged `w`. -/
def callsFor (w : Bool) (calls : List (Bool × α)) : List α :=
  calls.filterMap (fun p => if p.1 = w then some p.2 else none)

/-- Concrete fixture: a target returning the second component of a pair,
so the result shows which argument values it observed. -/
def sndFn : Nat × Nat → Nat := fun p => p.2

/-- Concrete fixture: a memoizer keying on the first component only (the
second component is a non-key argument). -/
def fstKey : Nat × Nat → Nat := Prod.fst

/-- Concrete fixture: a gate that always lets the call through, counting
invocations in its state. -/
def alwaysPol : ThrottlePolicy Nat := ⟨0, fun s => (true, s + 1)⟩

/-- Concrete fixture: a gate that suppresses every call, counting
invocations in its state. -/
def neverPol : ThrottlePolicy Nat := ⟨0, fun s => (false, s + 1)⟩

/-- Concrete fixture: a leading-edge style gate that lets only the first
invocation of an instance through. -/
def oncePol : ThrottlePolicy Nat := ⟨0, fun s => (decide (s = 0), s + 1)⟩

/-- Concrete fixture: a target that always fails, with the error carrying
the second component of its argument. -/
def errFn : Nat × Nat → Except Nat Nat := fun p => Except.error p.2

theorem emptyRegistry_apply (k : κ) : (emptyRegistry : Registry κ α σ) k = none := rfl

section Lemmas

variable [DecidableEq κ] (func : α → β) (keyFn : α → κ) (pol : ThrottlePolicy σ)

theorem resolved_hit (reg : Registry κ α σ) (a : α) (t : ThrottledOp α σ)
    (h : reg (keyFn a) = some t) :
    throttleFnsCachedByInput keyFn pol reg a = (t, reg) := by
  simp [throttleFnsCachedByInput, h]

theorem resolved_miss (reg : Registry κ α σ) (a : α)
    (h : reg (keyFn a) = none) :
    throttleFnsCachedByInput keyFn pol reg a =
      (⟨a, pol.init⟩, fun k => if k = keyFn a then some ⟨a, pol.init⟩ else reg k) := by
  simp [throttleFnsCachedByInput, h, makeThrottleFnForInput]

theorem resolvedThrottleFn_hit (reg : Registry κ α σ) (a : α) (t : ThrottledOp α σ)
    (h : reg (keyFn a) = some t) :
    resolvedThrottleFn keyFn pol reg a = t := by
  simp [resolvedThrottleFn, resolved_hit keyFn pol reg a t h]

theorem resolvedThrottleFn_miss (reg : Registry κ α σ) (a : α)
    (h : reg (keyFn a) = none) :
    resolvedThrottleFn keyFn pol reg a = ⟨a, pol.init⟩ := by
  simp [resolvedThrottleFn, resolved_miss keyFn pol reg a h]

theorem resolvedThrottleFn_congr (pol : ThrottlePolicy σ) (reg reg2 : Registry κ α σ) (a : α)
    (h : reg (keyFn a) = reg2 (keyFn a)) :
    resolvedThrottleFn keyFn pol reg a = resolvedThrottleFn keyFn pol reg2 a := by
  cases hc : reg (keyFn a) with
  | none =>
    rw [resolvedThrottleFn_miss keyFn pol reg a hc,
      resolvedThrottleFn_miss keyFn pol reg2 a (h ▸ hc)]
  | some t =>
    rw [resolvedThrottleFn_hit keyFn pol reg a t hc,
      resolvedThrottleFn_hit keyFn pol reg2 a t (h ▸ hc)]

theorem resolved_snd_self (reg : Registry κ α σ) (a : α) :
    (throttleFnsCachedByInput keyFn pol reg a).2 (keyFn a) =
      some (resolvedThrottleFn keyFn pol reg a) := by
  cases hc : reg (keyFn a) with
  | none =>
    rw [resolved_miss keyFn pol reg a hc, resolvedThrottleFn_miss keyFn pol reg a hc]
    simp
  | some t =>
    rw [resolved_hit keyFn pol reg a t hc, resolvedThrottleFn_hit keyFn pol reg a t hc]
    exact hc

theorem wrappedFunction_fst (reg : Registry κ α σ) (a : α) :
    (wrappedFunction func keyFn pol reg a).1 =
      if (pol.gate (resolvedThrottleFn keyFn pol reg a).tstate).1
        then some (func (resolvedThrottleFn keyFn pol reg a).capturedArgs) else none := by
  cases hc : reg (keyFn a) with
  | none =>
    rw [resolvedThrottleFn_miss keyFn pol reg a hc]
    simp [wrappedFunction, resolved_miss keyFn pol reg a hc, invokeThrottledOp]
  | some t =>
    rw [resolvedThrottleFn_hit keyFn pol reg a t hc]
    simp [wrappedFunction, resolved_hit keyFn pol reg a t hc, invokeThrottledOp]

theorem wrappedFunctionE_fst (funcE : α → Except ε β) (reg : Registry κ α σ) (a : α) :
    (wrappedFunctionE funcE keyFn pol reg a).1 =
      if (pol.gate (resolvedThrottleFn keyFn pol reg a).tstate).1
        then (funcE (resolvedThrottleFn keyFn pol reg a).capturedArgs).map some
        else Except.ok none := by
  cases hc : reg (keyFn a) with
  | none =>
    rw [resolvedThrottleFn_miss keyFn pol reg a hc]
    simp [wrappedFunctionE, resolved_miss keyFn pol reg a hc, invokeThrottledOpE]
  | some t =>
    rw [resolvedThrottleFn_hit keyFn pol reg a t hc]
    simp [wrappedFunctionE, resolved_hit keyFn pol reg a t hc, invokeThrottledOpE]

theorem wrappedFunction_snd_self (reg : Registry κ α σ) (a : α) :
    (wrappedFunction func keyFn pol reg a).2 (keyFn a) =
      some ⟨(resolvedThrottleFn keyFn pol reg a).capturedArgs,
        (pol.gate (resolvedThrottleFn keyFn pol reg a).tstate).2⟩ := by
  cases hc : reg (keyFn a) with
  | none =>
    rw [resolvedThrottleFn_miss keyFn pol reg a hc]
    simp [wrappedFunction, resolved_miss keyFn pol reg a hc, invokeThrottledOp]
  | some t =>
    rw [resolvedThrottleFn_hit keyFn pol reg a t hc]
    simp [wrappedFunction, resolved_hit keyFn pol reg a t hc, invokeThrottledOp]

theorem wrappedFunction_snd_other (reg : Registry κ α σ) (a : α) (k : κ)
    (h : k ≠ keyFn a) :
    (wrappedFunction func keyFn pol reg a).2 k = reg k := by
  cases hc : reg (keyFn a) with
  | none =>
    simp [wrappedFunction, resolved_miss keyFn pol reg a hc, invokeThrottledOp, h]
  | some t =>
    simp [wrappedFunction, resolved_hit keyFn pol reg a t hc, invokeThrottledOp, h]

theorem wrappedFunction_fst_congr (reg reg2 : Registry κ α σ) (a : α)
    (h : reg (keyFn a) = reg2 (keyFn a)) :
    (wrappedFunction func keyFn pol reg a).1 = (wrappedFunction func keyFn pol reg2 a).1 := by
  rw [wrappedFunction_fst, wrappedFunction_fst,
    resolvedThrottleFn_congr keyFn pol reg reg2 a h]

theorem wrappedFunction_snd_self_congr (reg reg2 : Registry κ α σ) (a : α)
    (h : reg (keyFn a) = reg2 (keyFn a)) :
    (wrappedFunction func keyFn pol reg a).2 (keyFn a) =
      (wrappedFunction func keyFn pol reg2 a).2 (keyFn a) := by
  rw [wrappedFunction_snd_self, wrappedFunction_snd_self,
    resolvedThrottleFn_congr keyFn pol reg reg2 a h]

theorem runCalls_nil (reg : Registry κ α σ) :
    runCalls func keyFn pol reg [] = ([], reg) := rfl

theorem runCalls_cons (reg : Registry κ α σ) (a : α) (rest : List α) :
    runCalls func keyFn pol reg (a :: rest) =
      ((wrappedFunction func keyFn pol reg a).1
          :: (runCalls func keyFn pol (wrappedFunction func keyFn pol reg a).2 rest).1,
        (runCalls func keyFn pol (wrappedFunction func keyFn pol reg a).2 rest).2) := rfl

theorem firstWithKey_nil (k : κ) : firstWithKey keyFn ([] : List α) k = none := rfl

theorem firstWithKey_cons_self (a : α) (rest : List α) :
    firstWithKey keyFn (a :: rest) (keyFn a) = some a := by
  simp [firstWithKey]

theorem firstWithKey_cons_other (a : α) (rest : List α) (k : κ) (h : keyFn a ≠ k) :
    firstWithKey keyFn (a :: rest) k = firstWithKey keyFn rest k := by
  simp [firstWithKey, List.find?_cons, h]

theorem firstWithKey_append_of_some (cs ds : List α) (k : κ) (a₀ : α)
    (h : firstWithKey keyFn cs k = some a₀) :
    firstWithKey keyFn (cs ++ ds) k = some a₀ := by
  induction cs with
  | nil => rw [firstWithKey_nil] at h; cases h
  | cons a rest ih =>
    by_cases hk : keyFn a = k
    · subst hk
      rw [firstWithKey_cons_self] at h
      rw [List.cons_append, firstWithKey_cons_self]
      exact h
    · rw [firstWithKey_cons_other keyFn a rest k hk] at h
      rw [List.cons_append, firstWithKey_cons_other keyFn a _ k hk]
      exact ih h

theorem firstWithKey_append_of_none (cs ds : List α) (k : κ)
    (h : firstWithKey keyFn cs k = none) :
    firstWithKey keyFn (cs ++ ds) k = firstWithKey keyFn ds k := by
  induction cs with
  | nil => rfl
  | cons a rest ih =>
    by_cases hk : keyFn a = k
    · subst hk
      rw [firstWithKey_cons_self] at h
      cases h
    · rw [firstWithKey_cons_other keyFn a rest k hk] at h
      rw [List.cons_append, firstWithKey_cons_other keyFn a _ k hk]
      exact ih h

/-- Once an instance is stored under a key, every later call leaves an
instance stored under that key with the same captured arguments. -/
theorem runCalls_persist (cs : List α) :
    ∀ (reg : Registry κ α σ) (k : κ) (t : ThrottledOp α σ), reg k = some t →
      ∃ u, (runCalls func keyFn pol reg cs).2 k = some u ∧
        u.capturedArgs = t.capturedArgs := by
  induction cs with
  | nil => intro reg k t h; exact ⟨t, h, rfl⟩
  | cons a rest ih =>
    intro reg k t h
    rw [runCalls_cons]
    by_cases hk : k = keyFn a
    · subst hk
      have hres : resolvedThrottleFn keyFn pol reg a = t :=
        resolvedThrottleFn_hit keyFn pol reg a t h
      have h2 := wrappedFunction_snd_self func keyFn pol reg a
      rw [hres] at h2
      obtain ⟨u, hu, hcap⟩ := ih (wrappedFunction func keyFn pol reg a).2 (keyFn a) _ h2
      exact ⟨u, hu, hcap⟩
    · have h2 : (wrappedFunction func keyFn pol reg a).2 k = some t := by
        rw [wrappedFunction_snd_other func keyFn pol reg a k hk]; exact h
      exact ih (wrappedFunction func keyFn pol reg a).2 k t h2

/-- Starting from a key not yet stored, the instance found under that key
after a sequence of calls carries exactly the arguments of the first call
whose arguments map to that key (and no instance is stored when no call
maps to it). -/
theorem runCalls_capturedArgs (cs : List α) :
    ∀ (reg : Registry κ α σ) (k : κ), reg k = none →
      Option.map ThrottledOp.capturedArgs ((runCalls func keyFn pol reg cs).2 k) =
        firstWithKey keyFn cs k := by
  induction cs with
  | nil => intro reg k h; simp [runCalls_nil, h, firstWithKey_nil]
  | cons a rest ih =>
    intro reg k h
    rw [runCalls_cons]
    by_cases hk : keyFn a = k
    · subst hk
      have hmiss : reg (keyFn a) = none := h
      have hres : resolvedThrottleFn keyFn pol reg a = ⟨a, pol.init⟩ :=
        resolvedThrottleFn_miss keyFn pol reg a hmiss
      have h2 := wrappedFunction_snd_self func keyFn pol reg a
      rw [hres] at h2
      obtain ⟨u, hu, hcap⟩ :=
        runCalls_persist func keyFn pol rest (wrappedFunction func keyFn pol reg a).2
          (keyFn a) _ h2
      rw [hu, firstWithKey_cons_self]
      simpa using hcap
    · have h2 : (wrappedFunction func keyFn pol reg a).2 k = none := by
        rw [wrappedFunction_snd_other func keyFn pol reg a k (fun hkk => hk hkk.symm)]
        exact h
      rw [firstWithKey_cons_other keyFn a rest k hk]
      exact ih (wrappedFunction func keyFn pol reg a).2 k h2

/-- What happens at a key is decided only by the part of the registry at
that key: running the calls with other keys removed, from a registry that
agrees at the key, leaves the same instance stored under it. -/
theorem runCalls_filter (k : κ) (cs : List α) :
    ∀ reg reg2 : Registry κ α σ, reg k = reg2 k →
      (runCalls func keyFn pol reg cs).2 k =
        (runCalls func keyFn pol reg2 (cs.filter (fun c => decide (keyFn c = k)))).2 k := by
  induction cs with
  | nil => intro reg reg2 h; simpa [runCalls_nil] using h
  | cons a rest ih =>
    intro reg reg2 h
    by_cases hk : keyFn a = k
    · have hf : (a :: rest).filter (fun c => decide (keyFn c = k)) =
          a :: rest.filter (fun c => decide (keyFn c = k)) := by
        simp [List.filter_cons, hk]
      rw [hf, runCalls_cons, runCalls_cons]
      apply ih
      subst hk
      exact wrappedFunction_snd_self_congr func keyFn pol reg reg2 a h
    · have hf : (a :: rest).filter (fun c => decide (keyFn c = k)) =
          rest.filter (fun c => decide (keyFn c = k)) := by
        simp [List.filter_cons, hk]
      rw [hf, runCalls_cons]
      apply ih
      rw [wrappedFunction_snd_other func keyFn pol reg a k (fun hkk => hk hkk.symm)]
      exact h

/-- Appending call lists composes the runs: the later calls start from the
registry the earlier calls produced, and results concatenate in order. -/
theorem runCalls_append (cs ds : List α) :
    ∀ reg : Registry κ α σ,
      runCalls func keyFn pol reg (cs ++ ds) =
        ((runCalls func keyFn pol reg cs).1
            ++ (runCalls func keyFn pol (runCalls func keyFn pol reg cs).2 ds).1,
          (runCalls func keyFn pol (runCalls func keyFn pol reg cs).2 ds).2) := by
  induction cs with
  | nil => intro reg; simp [runCalls_nil]
  | cons a rest ih => intro reg; simp [runCalls_cons, ih]

theorem runTwo_cons_fst (r1 r2 : Registry κ α σ) (a : α) (rest : List (Bool × α)) :
    runTwo func keyFn pol (r1, r2) ((true, a) :: rest) =
      ((wrappedFunction func keyFn pol r1 a).1
          :: (runTwo func keyFn pol ((wrappedFunction func keyFn pol r1 a).2, r2) rest).1,
        (runTwo func keyFn pol ((wrappedFunction func keyFn pol r1 a).2, r2) rest).2) := rfl

theorem runTwo_cons_snd (r1 r2 : Registry κ α σ) (a : α) (rest : List (Bool × α)) :
    runTwo func keyFn pol (r1, r2) ((false, a) :: rest) =
      ((wrappedFunction func keyFn pol r2 a).1
          :: (runTwo func keyFn pol (r1, (wrappedFunction func keyFn pol r2 a).2) rest).1,
        (runTwo func keyFn pol (r1, (wrappedFunction func keyFn pol r2 a).2) rest).2) := rfl

/-- In an interleaved run through two wrappers, the registry of each
wrapper ends up exactly as if only its own calls had happened. -/
theorem runTwo_registries (calls : List (Bool × α)) :
    ∀ r1 r2 : Registry κ α σ,
      (runTwo func keyFn pol (r1, r2) calls).2.1 =
          (runCalls func keyFn pol r1 (callsFor true calls)).2 ∧
        (runTwo func keyFn pol (r1, r2) calls).2.2 =
          (runCalls func keyFn pol r2 (callsFor false calls)).2 := by
  induction calls with
  | nil => intro r1 r2; simp [runTwo, callsFor, runCalls_nil]
  | cons p rest ih =>
    intro r1 r2
    obtain ⟨w, a⟩ := p
    cases w with
    | true =>
      rw [runTwo_cons_fst]
      have hc1 : callsFor true ((true, a) :: rest) = a :: callsFor true rest := by
        simp [callsFor]
      have hc2 : callsFor false ((true, a) :: rest) = callsFor false rest := by
        simp [callsFor]
      rw [hc1, hc2, runCalls_cons]
      exact ih (wrappedFunction func keyFn pol r1 a).2 r2
    | false =>
      rw [runTwo_cons_snd]
      have hc1 : callsFor true ((false, a) :: rest) = callsFor true rest := by
        simp [callsFor]
      have hc2 : callsFor false ((false, a) :: rest) = a :: callsFor false rest := by
        simp [callsFor]
      rw [hc1, hc2, runCalls_cons]
      exact ih r1 (wrappedFunction func keyFn pol r2 a).2

theorem throttlerRunsForKey_cons (reg : Registry κ α σ) (a : α) (rest : List α) (k : κ) :
    throttlerRunsForKey func keyFn pol reg (a :: rest) k =
      (if decide (keyFn a = k) && (reg (keyFn a)).isNone then 1 else 0)
        + throttlerRunsForKey func keyFn pol (wrappedFunction func keyFn pol reg a).2 rest k :=
  rfl

/-- Counting lemma for the factory: along a run, the throttler is run for
key `k` once when the starting registry has nothing under `k` and some
call maps to `k`, and never when an instance is already stored. -/
theorem throttlerRunsForKey_spec (cs : List α) :
    ∀ (reg : Registry κ α σ) (k : κ),
      ((reg k).isNone = true →
          throttlerRunsForKey func keyFn pol reg cs k =
            (if cs.any (fun c => decide (keyFn c = k)) then 1 else 0)) ∧
        ((reg k).isSome = true → throttlerRunsForKey func keyFn pol reg cs k = 0) := by
  induction cs with
  | nil => intro reg k; constructor <;> intro _ <;> simp [throttlerRunsForKey]
  | cons a rest ih =>
    intro reg k
    constructor
    · intro h
      rw [throttlerRunsForKey_cons]
      by_cases hk : keyFn a = k
      · subst hk
        have hnone : reg (keyFn a) = none := Option.isNone_iff_eq_none.mp h
        have hsome : ((wrappedFunction func keyFn pol reg a).2 (keyFn a)).isSome = true := by
          rw [wrappedFunction_snd_self func keyFn pol reg a]; rfl
        rw [(ih (wrappedFunction func keyFn pol reg a).2 (keyFn a)).2 hsome]
        simp [hnone]
      · have h2 : ((wrappedFunction func keyFn pol reg a).2 k).isNone = true := by
          rw [wrappedFunction_snd_other func keyFn pol reg a k (fun hkk => hk hkk.symm)]
          exact h
        rw [(ih (wrappedFunction func keyFn pol reg a).2 k).1 h2]
        simp [hk]
    · intro h
      rw [throttlerRunsForKey_cons]
      by_cases hk : keyFn a = k
      · subst hk
        have hne : (reg (keyFn a)).isNone = false := by
          cases hr : reg (keyFn a)
          · rw [hr] at h; exact absurd h (by simp)
          · rfl
        have hsome : ((wrappedFunction func keyFn pol reg a).2 (keyFn a)).isSome = true := by
          rw [wrappedFunction_snd_self func keyFn pol reg a]; rfl
        rw [(ih (wrappedFunction func keyFn pol reg a).2 (keyFn a)).2 hsome]
        simp [hne]
      · have h2 : ((wrappedFunction func keyFn pol reg a).2 k).isSome = true := by
          rw [wrappedFunction_snd_other func keyFn pol reg a k (fun hkk => hk hkk.symm)]
          exact h
        rw [(ih (wrappedFunction func keyFn pol reg a).2 k).2 h2]
        simp [hk]

end Lemmas

section Claims

/-- Claim C1: for every target and every pair of calls of the wrapped
function that map to the same memoizer key but carry different argument
values, the target, whenever the gate allows it to be invoked, observes
exactly the argument values passed on the first call with that key.
Formally: after any history `cs` of calls starting from the fresh
combinator, a further call with arguments `a` that produces a value (the
gate allowed it) produces the target applied to the arguments of the
first call in the whole history whose key equals the key of `a` — the
argument values of every later call with that key, including the current
one, are discarded. -/
theorem claim_C1_first_capture [DecidableEq κ] (func : α → β) (keyFn : α → κ)
    (pol : ThrottlePolicy σ) (cs : List α) (a : α) (v : β)
    (h : (wrappedFunction func keyFn pol
        (runCalls func keyFn pol emptyRegistry cs).2 a).1 = some v) :
    ∃ a₀, firstWithKey keyFn (cs ++ [a]) (keyFn a) = some a₀ ∧ v = func a₀ := by
  set reg := (runCalls func keyFn pol emptyRegistry cs).2 with hreg
  have hcap := runCalls_capturedArgs func keyFn pol cs emptyRegistry (keyFn a) rfl
  rw [← hreg] at hcap
  have hfst := wrappedFunction_fst func keyFn pol reg a
  rw [h] at hfst
  have hv : v = func (resolvedThrottleFn keyFn pol reg a).capturedArgs := by
    by_cases hg : (pol.gate (resolvedThrottleFn keyFn pol reg a).tstate).1 = true
    · simp [hg] at hfst; exact hfst
    · simp [hg] at hfst
  cases hr : reg (keyFn a) with
  | none =>
    rw [hr] at hcap
    simp only [Option.map_none'] at hcap
    have hres := resolvedThrottleFn_miss keyFn pol reg a hr
    refine ⟨a, ?_, ?_⟩
    · rw [firstWithKey_append_of_none keyFn cs [a] (keyFn a) hcap.symm,
        firstWithKey_cons_self]
    · rw [hv, hres]
  | some t =>
    rw [hr] at hcap
    simp only [Option.map_some'] at hcap
    have hres := resolvedThrottleFn_hit keyFn pol reg a t hr
    refine ⟨t.capturedArgs, ?_, ?_⟩
    · exact firstWithKey_append_of_some keyFn cs [a] (keyFn a) t.capturedArgs hcap.symm
    · rw [hv, hres]

/-- Witness for claim C1: keys are first components, the target returns
the second component; the calls `(1,10)` then `(1,99)` share key `1`, the
gate always allows, and the second call returns `10`, the value for the
first-seen arguments `(1,10)`, not `99`. -/
theorem claim_C1_first_capture_witness :
    (wrappedFunction sndFn fstKey alwaysPol
        (runCalls sndFn fstKey alwaysPol emptyRegistry [(1, 10)]).2 (1, 99)).1 = some 10 ∧
      ∃ a₀, firstWithKey fstKey ([(1, 10)] ++ [(1, 99)]) (fstKey (1, 99)) = some a₀ ∧
        10 = sndFn a₀ :=
  ⟨by decide,
    claim_C1_first_capture sndFn fstKey alwaysPol [(1, 10)] (1, 99) 10 (by decide)⟩

/-- Claim C2: on every call of the wrapped function, when the gate of the
resolved throttle instance allows the invocation the call returns exactly
the value of the target at that invocation (the target applied to the
arguments the instance captured), and when the gate suppresses it the
call returns exactly the sentinel of the throttled operation for a
suppressed call (`none`); the core substitutes no value of its own. -/
theorem claim_C2_pass_through [DecidableEq κ] (func : α → β) (keyFn : α → κ)
    (pol : ThrottlePolicy σ) (reg : Registry κ α σ) (a : α) :
    ((pol.gate (resolvedThrottleFn keyFn pol reg a).tstate).1 = true →
        (wrappedFunction func keyFn pol reg a).1 =
          some (func (resolvedThrottleFn keyFn pol reg a).capturedArgs)) ∧
      ((pol.gate (resolvedThrottleFn keyFn pol reg a).tstate).1 = false →
        (wrappedFunction func keyFn pol reg a).1 = none) := by
  constructor <;> intro hg <;> rw [wrappedFunction_fst] <;> simp [hg]

/-- Witness for claim C2: under the always-allow gate the call `(1,5)`
returns `some 5`, the value of the target; under the always-suppress gate
the same call returns the sentinel `none`. -/
theorem claim_C2_pass_through_witness :
    ((alwaysPol.gate (resolvedThrottleFn fstKey alwaysPol emptyRegistry (1, 5)).tstate).1 =
        true ∧
      (wrappedFunction sndFn fstKey alwaysPol emptyRegistry (1, 5)).1 = some 5) ∧
    ((neverPol.gate (resolvedThrottleFn fstKey neverPol emptyRegistry (1, 5)).tstate).1 =
        false ∧
      (wrappedFunction sndFn fstKey neverPol emptyRegistry (1, 5)).1 = none) :=
  ⟨⟨by decide,
      (claim_C2_pass_through sndFn fstKey alwaysPol emptyRegistry (1, 5)).1 (by decide)⟩,
    ⟨by decide,
      (claim_C2_pass_through sndFn fstKey neverPol emptyRegistry (1, 5)).2 (by decide)⟩⟩

/-- Claim C3: two calls of the wrapped function whose argument lists are
equal under the memoizer key resolve the same throttle instance: after
the first call, the resolution for the second call is a cache hit which
returns the instance stored by the first call — same captured arguments
as the instance the first call used, with the timing state the first
call accumulated — and stores nothing new. -/
theorem claim_C3_same_instance [DecidableEq κ] (func : α → β) (keyFn : α → κ)
    (pol : ThrottlePolicy σ) (reg : Registry κ α σ) (a1 a2 : α)
    (h : keyFn a1 = keyFn a2) :
    throttleFnsCachedByInput keyFn pol ((wrappedFunction func keyFn pol reg a1).2) a2 =
      (⟨(resolvedThrottleFn keyFn pol reg a1).capturedArgs,
          (pol.gate (resolvedThrottleFn keyFn pol reg a1).tstate).2⟩,
        (wrappedFunction func keyFn pol reg a1).2) := by
  have h2 : (wrappedFunction func keyFn pol reg a1).2 (keyFn a2) =
      some ⟨(resolvedThrottleFn keyFn pol reg a1).capturedArgs,
        (pol.gate (resolvedThrottleFn keyFn pol reg a1).tstate).2⟩ := by
    rw [← h]
    exact wrappedFunction_snd_self func keyFn pol reg a1
  exact resolved_hit keyFn pol _ a2 _ h2

/-- Witness for claim C3: the calls `(1,10)` and `(1,99)` share key `1`;
under the leading-edge gate, the second call resolves the stored instance
with captured arguments `(1,10)` and the accumulated timing state `1`,
leaving the registry unchanged. -/
theorem claim_C3_same_instance_witness :
    fstKey (1, 10) = fstKey (1, 99) ∧
      throttleFnsCachedByInput fstKey oncePol
          ((wrappedFunction sndFn fstKey oncePol emptyRegistry (1, 10)).2) (1, 99) =
        (⟨(1, 10), 1⟩, (wrappedFunction sndFn fstKey oncePol emptyRegistry (1, 10)).2) :=
  ⟨by decide,
    claim_C3_same_instance sndFn fstKey oncePol emptyRegistry (1, 10) (1, 99) (by decide)⟩

/-- Claim C4: the throttler factory runs only on calls whose argument
list is novel under the memoizer key, and exactly once per distinct key:
over any call history from the fresh combinator, the number of throttler
runs for a key is one when some call maps to it, and zero when none
does. -/
theorem claim_C4_lazy_once_per_key [DecidableEq κ] (func : α → β) (keyFn : α → κ)
    (pol : ThrottlePolicy σ) (cs : List α) (k : κ) :
    throttlerRunsForKey func keyFn pol emptyRegistry cs k =
      if cs.any (fun c => decide (keyFn c = k)) then 1 else 0 :=
  (throttlerRunsForKey_spec func keyFn pol cs emptyRegistry k).1 rfl

/-- Witness for claim C4: over the history `(1,10), (1,99), (2,5)` the
throttler runs exactly once for key `1` (on the first call; the second
call with key `1` is a hit) and exactly once for key `2`, and never for
the unseen key `3`. -/
theorem claim_C4_lazy_once_per_key_witness :
    throttlerRunsForKey sndFn fstKey oncePol emptyRegistry [(1, 10), (1, 99), (2, 5)] 1 = 1 ∧
      throttlerRunsForKey sndFn fstKey oncePol emptyRegistry [(1, 10), (1, 99), (2, 5)] 2 = 1 ∧
      throttlerRunsForKey sndFn fstKey oncePol emptyRegistry [(1, 10), (1, 99), (2, 5)] 3 = 0 :=
  ⟨claim_C4_lazy_once_per_key sndFn fstKey oncePol [(1, 10), (1, 99), (2, 5)] 1,
    claim_C4_lazy_once_per_key sndFn fstKey oncePol [(1, 10), (1, 99), (2, 5)] 2,
    claim_C4_lazy_once_per_key sndFn fstKey oncePol [(1, 10), (1, 99), (2, 5)] 3⟩

/-- Claim C5: per-key independence. Removing from a call history every
call whose key differs from the key of `a` changes neither the stored
throttle instance for the key of `a` nor the outcome (allowed value or
suppression) of a further call with `a`: calls for other keys never
suppress, delay or trigger anything for this key. -/
theorem claim_C5_key_independence [DecidableEq κ] (func : α → β) (keyFn : α → κ)
    (pol : ThrottlePolicy σ) (cs : List α) (a : α) :
    (wrappedFunction func keyFn pol (runCalls func keyFn pol emptyRegistry cs).2 a).1 =
        (wrappedFunction func keyFn pol
          (runCalls func keyFn pol emptyRegistry
            (cs.filter (fun c => decide (keyFn c = keyFn a)))).2 a).1 ∧
      (runCalls func keyFn pol emptyRegistry cs).2 (keyFn a) =
        (runCalls func keyFn pol emptyRegistry
          (cs.filter (fun c => decide (keyFn c = keyFn a)))).2 (keyFn a) := by
  have hreg := runCalls_filter func keyFn pol (keyFn a) cs emptyRegistry emptyRegistry rfl
  exact ⟨wrappedFunction_fst_congr func keyFn pol _ _ a hreg, hreg⟩

/-- Witness for claim C5: under the leading-edge gate, after the history
`(1,10), (2,5)` a call `(2,7)` behaves exactly as after the history
`(2,5)` alone (it is suppressed by the shared key-2 instance), and the
key-2 instance is the same in both runs. -/
theorem claim_C5_key_independence_witness :
    (wrappedFunction sndFn fstKey oncePol
          (runCalls sndFn fstKey oncePol emptyRegistry [(1, 10), (2, 5)]).2 (2, 7)).1 =
        (wrappedFunction sndFn fstKey oncePol
          (runCalls sndFn fstKey oncePol emptyRegistry
            ([(1, 10), (2, 5)].filter (fun c => decide (fstKey c = fstKey (2, 7))))).2
          (2, 7)).1 ∧
      (runCalls sndFn fstKey oncePol emptyRegistry [(1, 10), (2, 5)]).2 (fstKey (2, 7)) =
        (runCalls sndFn fstKey oncePol emptyRegistry
          ([(1, 10), (2, 5)].filter (fun c => decide (fstKey c = fstKey (2, 7))))).2
          (fstKey (2, 7)) :=
  claim_C5_key_independence sndFn fstKey oncePol [(1, 10), (2, 5)] (2, 7)

/-- Claim C6: pass-through failures. The result of a call of the wrapped
function (over a fallible target) is an error exactly when the gate of
the resolved instance allowed the invocation and the target itself failed
with that very error: a target failure during a gated invocation
propagates unmodified out of the call that triggered it, and the
combinator itself raises, catches, wraps and swallows nothing. -/
theorem claim_C6_error_pass_through [DecidableEq κ] (funcE : α → Except ε β)
    (keyFn : α → κ) (pol : ThrottlePolicy σ) (reg : Registry κ α σ) (a : α) (e : ε) :
    (wrappedFunctionE funcE keyFn pol reg a).1 = Except.error e ↔
      (pol.gate (resolvedThrottleFn keyFn pol reg a).tstate).1 = true ∧
        funcE (resolvedThrottleFn keyFn pol reg a).capturedArgs = Except.error e := by
  rw [wrappedFunctionE_fst keyFn pol funcE reg a]
  by_cases hg : (pol.gate (resolvedThrottleFn keyFn pol reg a).tstate).1 = true
  · cases hfx : funcE (resolvedThrottleFn keyFn pol reg a).capturedArgs <;>
      simp [hg, Except.map, hfx]
  · simp [hg]

/-- Witness for claim C6: with an always-failing target and the
always-allow gate, the call `(1,7)` lets the error `7` of the target
propagate unmodified as the result of the wrapped call. -/
theorem claim_C6_error_pass_through_witness :
    (wrappedFunctionE errFn fstKey alwaysPol emptyRegistry (1, 7)).1 =
      Except.error 7 :=
  (claim_C6_error_pass_through errFn fstKey alwaysPol emptyRegistry (1, 7) 7).mpr
    ⟨by decide, rfl⟩

/-- Claim C7: each call of the wrapped function first resolves the
per-input throttled operation through the memoized cache and then invokes
it, within that same call; and call histories are processed in caller
order, never reordered: running a history with one more call appended is
running the history, then processing that call in full against the
registry the history produced, its result coming last. -/
theorem claim_C7_in_order [DecidableEq κ] (func : α → β) (keyFn : α → κ)
    (pol : ThrottlePolicy σ) (reg : Registry κ α σ) (cs : List α) (c a : α) :
    wrappedFunction func keyFn pol reg a =
        invokeThrottledOp func pol (keyFn a)
          (throttleFnsCachedByInput keyFn pol reg a).1
          (throttleFnsCachedByInput keyFn pol reg a).2 ∧
      runCalls func keyFn pol reg (cs ++ [c]) =
        ((runCalls func keyFn pol reg cs).1
            ++ [(wrappedFunction func keyFn pol (runCalls func keyFn pol reg cs).2 c).1],
          (wrappedFunction func keyFn pol (runCalls func keyFn pol reg cs).2 c).2) := by
  refine ⟨rfl, ?_⟩
  rw [runCalls_append func keyFn pol cs [c] reg]
  rfl

/-- Witness for claim C7: appending the call `(2,5)` to the history
`(1,10)` runs the history first and processes `(2,5)` last, against the
registry the history produced. -/
theorem claim_C7_in_order_witness :
    runCalls sndFn fstKey oncePol emptyRegistry ([(1, 10)] ++ [(2, 5)]) =
      ((runCalls sndFn fstKey oncePol emptyRegistry [(1, 10)]).1
          ++ [(wrappedFunction sndFn fstKey oncePol
            (runCalls sndFn fstKey oncePol emptyRegistry [(1, 10)]).2 (2, 5)).1],
        (wrappedFunction sndFn fstKey oncePol
          (runCalls sndFn fstKey oncePol emptyRegistry [(1, 10)]).2 (2, 5)).2) :=
  (claim_C7_in_order sndFn fstKey oncePol emptyRegistry [(1, 10)] (2, 5) (1, 10)).2

/-- Claim C8: two separately constructed wrappers over the same target,
memoizer and throttler have fully independent per-key state: in any
interleaved run through two wrappers, each wrapper's registry ends up
exactly as if only the calls sent through that wrapper had happened, so
no instance or registry entry is shared and calls through one never
affect gating in the other. -/
theorem claim_C8_independent_wrappers [DecidableEq κ] (func : α → β) (keyFn : α → κ)
    (pol : ThrottlePolicy σ) (calls : List (Bool × α)) :
    (runTwo func keyFn pol
          ((makeInputSensitiveThrottle func keyFn pol).registry,
            (makeInputSensitiveThrottle func keyFn pol).registry) calls).2.1 =
        (runCalls func keyFn pol (makeInputSensitiveThrottle func keyFn pol).registry
          (callsFor true calls)).2 ∧
      (runTwo func keyFn pol
          ((makeInputSensitiveThrottle func keyFn pol).registry,
            (makeInputSensitiveThrottle func keyFn pol).registry) calls).2.2 =
        (runCalls func keyFn pol (makeInputSensitiveThrottle func keyFn pol).registry
          (callsFor false calls)).2 :=
  runTwo_registries func keyFn pol calls _ _

/-- Witness for claim C8: interleaving a key-1 call through the first
wrapper between two key-1 calls through the second wrapper leaves each
wrapper's registry exactly as a run of its own calls alone. -/
theorem claim_C8_independent_wrappers_witness :
    (runTwo sndFn fstKey oncePol
          ((makeInputSensitiveThrottle sndFn fstKey oncePol).registry,
            (makeInputSensitiveThrottle sndFn fstKey oncePol).registry)
          [(false, (1, 20)), (true, (1, 10)), (false, (1, 30))]).2.1 =
        (runCalls sndFn fstKey oncePol
          (makeInputSensitiveThrottle sndFn fstKey oncePol).registry
          (callsFor true [(false, (1, 20)), (true, (1, 10)), (false, (1, 30))])).2 ∧
      (runTwo sndFn fstKey oncePol
          ((makeInputSensitiveThrottle sndFn fstKey oncePol).registry,
            (makeInputSensitiveThrottle sndFn fstKey oncePol).registry)
          [(false, (1, 20)), (true, (1, 10)), (false, (1, 30))]).2.2 =
        (runCalls sndFn fstKey oncePol
          (makeInputSensitiveThrottle sndFn fstKey oncePol).registry
          (callsFor false [(false, (1, 20)), (true, (1, 10)), (false, (1, 30))])).2 :=
  claim_C8_independent_wrappers sndFn fstKey oncePol
    [(false, (1, 20)), (true, (1, 10)), (false, (1, 30))]

/-- Claim C9: constructing the combinator runs the memoizer exactly once,
eagerly: the wrapper `makeInputSensitiveThrottle` returns already carries
the single memoized registry (still empty, no call has happened yet) and
its per-call behavior is exactly `wrappedFunction` over that registry;
and every subsequent call resolves through that single registry: once a
call history stored an instance under a key, a further call with that key
resolves exactly the stored instance, creating and storing nothing new. -/
theorem claim_C9_single_eager_registry [DecidableEq κ] (func : α → β) (keyFn : α → κ)
    (pol : ThrottlePolicy σ) :
    (makeInputSensitiveThrottle func keyFn pol).registry =
        (emptyRegistry : Registry κ α σ) ∧
      (makeInputSensitiveThrottle func keyFn pol).call = wrappedFunction func keyFn pol ∧
      ∀ (cs : List α) (a : α) (t : ThrottledOp α σ),
        (runCalls func keyFn pol (makeInputSensitiveThrottle func keyFn pol).registry
            cs).2 (keyFn a) = some t →
          throttleFnsCachedByInput keyFn pol
              (runCalls func keyFn pol (makeInputSensitiveThrottle func keyFn pol).registry
                cs).2 a =
            (t, (runCalls func keyFn pol
              (makeInputSensitiveThrottle func keyFn pol).registry cs).2) := by
  refine ⟨rfl, rfl, ?_⟩
  intro cs a t h
  exact resolved_hit keyFn pol _ a t h

/-- Witness for claim C9: after the single call `(1,10)` through a fresh
wrapper, the call `(1,99)` resolves the stored key-1 instance from the
one registry of the wrapper, unchanged. -/
theorem claim_C9_single_eager_registry_witness :
    (runCalls sndFn fstKey oncePol
          (makeInputSensitiveThrottle sndFn fstKey oncePol).registry [(1, 10)]).2
        (fstKey (1, 99)) = some ⟨(1, 10), 1⟩ ∧
      throttleFnsCachedByInput fstKey oncePol
          (runCalls sndFn fstKey oncePol
            (makeInputSensitiveThrottle sndFn fstKey oncePol).registry [(1, 10)]).2
          (1, 99) =
        (⟨(1, 10), 1⟩, (runCalls sndFn fstKey oncePol
          (makeInputSensitiveThrottle sndFn fstKey oncePol).registry [(1, 10)]).2) :=
  ⟨by decide,
    (claim_C9_single_eager_registry sndFn fstKey oncePol).2.2 [(1, 10)] (1, 99)
      ⟨(1, 10), 1⟩ (by decide)⟩

/-- Claim C10: a call whose key is novel stores the throttle instance for
that key unconditionally, before and regardless of the gating decision:
the memoized resolution step itself already stores the fresh instance
(timing state still initial, the gate not yet consulted), and after the
whole call the instance is stored with the stepped timing state whatever
the gate decided — the statement holds for every policy, including one
that suppresses this first invocation. -/
theorem claim_C10_store_regardless_of_gate [DecidableEq κ] (func : α → β)
    (keyFn : α → κ) (pol : ThrottlePolicy σ) (reg : Registry κ α σ) (a : α)
    (h : reg (keyFn a) = none) :
    (throttleFnsCachedByInput keyFn pol reg a).2 (keyFn a) = some ⟨a, pol.init⟩ ∧
      (wrappedFunction func keyFn pol reg a).2 (keyFn a) =
        some ⟨a, (pol.gate pol.init).2⟩ := by
  constructor
  · rw [resolved_miss keyFn pol reg a h]
    simp
  · rw [wrappedFunction_snd_self func keyFn pol reg a,
      resolvedThrottleFn_miss keyFn pol reg a h]

/-- Witness for claim C10: under the always-suppress gate, the first call
`(1,10)` is suppressed, yet its throttle instance is stored: already at
resolution with the initial timing state, and after the call with the
stepped state. -/
theorem claim_C10_store_regardless_of_gate_witness :
    (emptyRegistry : Registry Nat (Nat × Nat) Nat) (fstKey (1, 10)) = none ∧
      (throttleFnsCachedByInput fstKey neverPol emptyRegistry (1, 10)).2 (fstKey (1, 10)) =
        some ⟨(1, 10), 0⟩ ∧
      (wrappedFunction sndFn fstKey neverPol emptyRegistry (1, 10)).2 (fstKey (1, 10)) =
        some ⟨(1, 10), 1⟩ :=
  ⟨rfl,
    (claim_C10_store_regardless_of_gate sndFn fstKey neverPol emptyRegistry (1, 10) rfl).1,
    (claim_C10_store_regardless_of_gate sndFn fstKey neverPol emptyRegistry (1, 10) rfl).2⟩

end Claims

end InputSensitiveThrottle
